import Mathlib

/-!
Shallow embedding of the portfolio simulator (src/proyectofinal1.py).

Modelling conventions:
* Python floats are modelled as exact rationals (ℚ); Python `round(x, 2)` is
  modelled as exact decimal round-half-to-even to 2 places (`round2`).
* The price lookup `obtener_precio_cache` is modelled over the outcome of the
  external fetch: an exception is `Except.error`, an empty history is `.ok []`.
* A price source seen by the report sections is a function
  `String → Option ℚ` (the cached lookup result per ticker; `none` = lookup
  failure, the value Python represents as `None`).
* A Python float division whose divisor is zero raises `ZeroDivisionError`
  (or yields a non-finite value under NumPy operand semantics); either way it
  has no finite value, so such an unguarded division is modelled as `none`.
* Python `if x:` truthiness on an optional float is `x` being some nonzero
  value; `if x is None` only tests for `none`.
* The Python dict `valores` (insertion ordered, assignment overwrites the
  value under an existing key) is modelled as an association list with
  `insertaValor` performing the overwrite-or-append of `valores[t] = v`.
* The three scenario labels built at lines 107-111 are pairwise distinct
  strings (distinct emoji prefixes), so the grouping key is modelled by the
  inductive `Escenario`.
-/

set_option autoImplicit false

namespace ProyectoFinal

/-- One user-entered position (lines 39-43): ticker, cantidad (integer from
`st.number_input` with `min_value=1, step=1`), precio_compra. -/
structure Holding where
  ticker : String
  cantidad : ℕ
  precioCompra : ℚ
deriving Repr, DecidableEq

/-- The session portfolio: an insertion-ordered list of holdings. -/
abbrev Portfolio := List Holding

/-- What the cached price lookup returns for each ticker during one pass. -/
abbrev PriceSource := String → Option ℚ

/-- Round-half-to-even to the nearest integer, the rule of Python `round`
(idealized over ℚ). -/
def roundHalfEven (x : ℚ) : ℤ :=
  if x - Int.floor x < 1 / 2 then Int.floor x
  else if 1 / 2 < x - Int.floor x then Int.floor x + 1
  else if Even (Int.floor x) then Int.floor x else Int.floor x + 1

/-- Python `round(x, 2)`: round half to even at 2 decimal places. -/
def round2 (x : ℚ) : ℚ := (roundHalfEven (x * 100) : ℚ) / 100

/-- Lines 11-20, `obtener_precio_cache`: the fetch of `history(period="1d")`
either raises (caught, returning None), or yields a list of closing prices;
an empty history yields None, otherwise the last (most recent) close is
returned. -/
def obtenerPrecioCache (fetch : Except Unit (List ℚ)) : Option ℚ :=
  match fetch with
  | .error _ => none
  | .ok hist => hist.getLast?

/-- One row of the "Portafolio Actual" table (lines 62-68). -/
structure FilaValuacion where
  ticker : String
  cantidad : ℕ
  precioCompra : ℚ
  precioActual : ℚ
  valorActual : ℚ
deriving Repr, DecidableEq

/-- The row built for a holding whose price lookup returned `p`
(lines 61-68): `valor_actual = round(cantidad * precio_actual, 2)`. -/
def filaValuacion (inv : Holding) (p : ℚ) : FilaValuacion :=
  ⟨inv.ticker, inv.cantidad, inv.precioCompra, round2 p,
    round2 ((inv.cantidad : ℚ) * p)⟩

/-- The valuation loop (lines 53-68): holdings whose lookup returns `None`
are skipped (`continue`), the rest produce a row in order. -/
def datosPortafolio (ps : PriceSource) : Portfolio → List FilaValuacion
  | [] => []
  | inv :: rest =>
    match ps inv.ticker with
    | none => datosPortafolio ps rest
    | some p => filaValuacion inv p :: datosPortafolio ps rest

/-- The `st.warning` signals of the valuation loop (line 59): one per holding
whose lookup failed, carrying that ticker. -/
def avisosValuacion (ps : PriceSource) (port : Portfolio) : List String :=
  port.filterMap (fun inv =>
    match ps inv.ticker with
    | none => some inv.ticker
    | some _ => none)

/-- The three named market scenarios of the simulation (lines 107-111). -/
inductive Escenario
  | pesimista
  | neutral
  | optimista
deriving Repr, DecidableEq

/-- The three slider percentages (lines 86-90). -/
structure Sliders where
  pesimistaPct : ℚ
  neutralPct : ℚ
  optimistaPct : ℚ
deriving Repr, DecidableEq

/-- The signed percentage the sliders assign to a scenario. -/
def Sliders.pct (sl : Sliders) : Escenario → ℚ
  | .pesimista => sl.pesimistaPct
  | .neutral => sl.neutralPct
  | .optimista => sl.optimistaPct

/-- One row of `resultados` (lines 118-125); the stored numbers are rounded
to 2 decimals as in the source. -/
structure FilaSimulacion where
  ticker : String
  escenario : Escenario
  valorActual : ℚ
  valorFuturo : ℚ
  diferencia : ℚ
  rendimiento : ℚ
deriving Repr, DecidableEq

/-- The row appended for one holding, price `p` and one scenario
(lines 104-125): `precio_simulado = p * (1 + pct/100)`,
`valor_futuro = cantidad * precio_simulado`,
`diferencia = valor_futuro - valor_actual`,
`rendimiento = diferencia / valor_actual * 100 if valor_actual != 0 else 0`. -/
def filaSimulacion (sl : Sliders) (inv : Holding) (p : ℚ) (esc : Escenario) :
    FilaSimulacion :=
  let valorActual : ℚ := (inv.cantidad : ℚ) * p
  let precioSimulado : ℚ := p * (1 + sl.pct esc / 100)
  let valorFuturo : ℚ := (inv.cantidad : ℚ) * precioSimulado
  let diferencia : ℚ := valorFuturo - valorActual
  let rendimiento : ℚ :=
    if valorActual ≠ 0 then diferencia / valorActual * 100 else 0
  ⟨inv.ticker, esc, round2 valorActual, round2 valorFuturo, round2 diferencia,
    round2 rendimiento⟩

/-- The simulation loop (lines 95-125): holdings with `None` price are
skipped with a warning; each kept holding appends one row per scenario, in
the insertion order pesimista, neutral, optimista of the `escenarios` dict. -/
def resultados (sl : Sliders) (ps : PriceSource) : Portfolio → List FilaSimulacion
  | [] => []
  | inv :: rest =>
    match ps inv.ticker with
    | none => resultados sl ps rest
    | some p =>
      filaSimulacion sl inv p .pesimista ::
        filaSimulacion sl inv p .neutral ::
          filaSimulacion sl inv p .optimista :: resultados sl ps rest

/-- The `st.warning` signals of the simulation loop (line 101): one per
holding whose lookup failed. -/
def avisosSimulacion (ps : PriceSource) (port : Portfolio) : List String :=
  port.filterMap (fun inv =>
    match ps inv.ticker with
    | none => some inv.ticker
    | some _ => none)

/-- `total_actual_portafolio` (lines 93, 105): the sum of
`cantidad * precio_actual` over the holdings kept by the simulation loop. -/
def totalActualPortafolio (ps : PriceSource) : Portfolio → ℚ
  | [] => 0
  | inv :: rest =>
    match ps inv.ticker with
    | none => totalActualPortafolio ps rest
    | some p => (inv.cantidad : ℚ) * p + totalActualPortafolio ps rest

/-- `total_escenario` (line 146): the sum of the stored (rounded)
`Valor futuro` over the result rows of one scenario. -/
def totalEscenario (rs : List FilaSimulacion) (esc : Escenario) : ℚ :=
  ((rs.filter (fun r => r.escenario == esc)).map FilaSimulacion.valorFuturo).sum

/-- One entry of the `resumen` dict (lines 149-153). -/
structure ResumenEscenario where
  valorFuturoTotal : ℚ
  diferenciaTotal : ℚ
  rendimientoTotal : ℚ
deriving Repr, DecidableEq

/-- Lines 145-153: per scenario, `total_escenario` summed from the rows,
`diferencia = total_escenario - total_actual_portafolio`, and the
zero-guarded `rendimiento`; the dict stores each rounded to 2 decimals. -/
def resumenEscenario (rs : List FilaSimulacion) (totalActual : ℚ)
    (esc : Escenario) : ResumenEscenario :=
  let t := totalEscenario rs esc
  let diferencia := t - totalActual
  let rendimiento := if totalActual ≠ 0 then diferencia / totalActual * 100 else 0
  ⟨round2 t, round2 diferencia, round2 rendimiento⟩

/-- Line 194: `(precio_actual - precio_compra) / precio_compra * 100`.
The division is NOT guarded in the source; a zero `precio_compra` makes it
fail (no finite value), modelled as `none`. -/
def rendimientoBenchmark (precioCompra precioActual : ℚ) : Option ℚ :=
  if precioCompra = 0 then none
  else some ((precioActual - precioCompra) / precioCompra * 100)

/-- The benchmark return loop (lines 189-195): a holding is kept only when
its fetched price is truthy (`if precio_actual:`, i.e. not None and nonzero);
a kept holding with zero purchase price makes the whole pass fail. -/
def rendimientoPortafolio (ps : PriceSource) : Portfolio → Option (List ℚ)
  | [] => some []
  | inv :: rest =>
    match ps inv.ticker with
    | none => rendimientoPortafolio ps rest
    | some p =>
      if p = 0 then rendimientoPortafolio ps rest
      else
        match rendimientoBenchmark inv.precioCompra p with
        | none => none
        | some r => (rendimientoPortafolio ps rest).map (fun rs => r :: rs)

/-- Line 197: `rend_total = sum(...) / len(...) if rendimiento_portafolio
else 0`. -/
def rendTotal (ps : PriceSource) (port : Portfolio) : Option ℚ :=
  (rendimientoPortafolio ps port).map
    (fun rs => if rs ≠ [] then rs.sum / (rs.length : ℚ) else 0)

/-- The per-holding returns C7 words would include: every holding with a
resolvable (non-None) price contributes, a zero price included.
This follows the claim, for comparison with `rendTotal` from the source. -/
def rendimientosSpecC7 (ps : PriceSource) (port : Portfolio) : List ℚ :=
  port.filterMap (fun inv =>
    (ps inv.ticker).map (fun p =>
      (p - inv.precioCompra) / inv.precioCompra * 100))

/-- The flat return as claim C7 words it: the arithmetic mean of
`rendimientosSpecC7`, 0 when empty. -/
def rendTotalSpecC7 (ps : PriceSource) (port : Portfolio) : ℚ :=
  let rs := rendimientosSpecC7 ps port
  if rs ≠ [] then rs.sum / (rs.length : ℚ) else 0

/-- Line 206: `serie_norm = (serie / serie.iloc[0]) * 100`, performed per
non-empty series; nothing is produced for an empty one. Lean division by
zero yields 0; like the non-finite values the source floats produce when
the first price is 0, it differs from the spec-required base 100. -/
def serieNorm : List ℚ → List ℚ
  | [] => []
  | p0 :: rest => (p0 :: rest).map (fun p => p / p0 * 100)

/-- Lines 209-214: the "Mi portafolio" trace, the single value
`100 + rend_total` broadcast over the benchmark date range. -/
def lineaPortafolio (n : ℕ) (rendTotal : ℚ) : List ℚ :=
  List.replicate n (100 + rendTotal)

/-- `valores[ticker] = valor` (line 236): overwrite the value under an
existing key, else append the new pair, preserving insertion order. -/
def insertaValor (m : List (String × ℚ)) (k : String) (v : ℚ) :
    List (String × ℚ) :=
  if m.any (fun kv => kv.1 == k) then
    m.map (fun kv => if kv.1 == k then (k, v) else kv)
  else m ++ [(k, v)]

/-- The diversification loop (lines 227-236): state is
`(total_valor, valores)`; a holding is kept only when its fetched price is
truthy (`if precio:`); its value is added to the total and stored under its
ticker (overwriting a duplicate key). -/
def divLoop (ps : PriceSource) (acc : ℚ × List (String × ℚ)) :
    Portfolio → ℚ × List (String × ℚ)
  | [] => acc
  | inv :: rest =>
    match ps inv.ticker with
    | none => divLoop ps acc rest
    | some p =>
      if p = 0 then divLoop ps acc rest
      else
        divLoop ps
          (acc.1 + (inv.cantidad : ℚ) * p,
            insertaValor acc.2 inv.ticker ((inv.cantidad : ℚ) * p))
          rest

/-- Lines 227-236 from the empty initial state. -/
def diversificacion (ps : PriceSource) (port : Portfolio) :
    ℚ × List (String × ℚ) :=
  divLoop ps (0, []) port

/-- The `(ticker, valor)` contributions of the kept holdings, in loop order
(one entry per kept holding, duplicates not merged). -/
def valoresContribuidos (ps : PriceSource) (port : Portfolio) :
    List (String × ℚ) :=
  port.filterMap (fun inv =>
    match ps inv.ticker with
    | none => none
    | some p =>
      if p = 0 then none else some (inv.ticker, (inv.cantidad : ℚ) * p))

/-- Lines 238-244: the weight percentages `(valor / total_valor) * 100` per
stored ticker, computed only when `total_valor > 0` (else nothing). -/
def pesos (ps : PriceSource) (port : Portfolio) : List (String × ℚ) :=
  let d := diversificacion ps port
  if 0 < d.1 then d.2.map (fun kv => (kv.1, kv.2 / d.1 * 100)) else []

/-- Lines 243-246: the concentration `st.warning` signals, one per stored
ticker whose weight strictly exceeds 50. These are the only warnings the
diversification section can emit: its loop has no lookup-failure branch. -/
def avisosDiversificacion (ps : PriceSource) (port : Portfolio) : List String :=
  ((pesos ps port).filter (fun kv => decide (50 < kv.2))).map Prod.fst

/-- The per-holding returns the benchmark loop actually collects when no
division fails: one entry per holding whose fetched price is truthy. -/
def rendimientosTruthy (ps : PriceSource) (port : Portfolio) : List ℚ :=
  port.filterMap (fun inv =>
    match ps inv.ticker with
    | none => none
    | some p =>
      if p = 0 then none
      else some ((p - inv.precioCompra) / inv.precioCompra * 100))

/-! Concrete price sources and portfolios used to instantiate the theorems. -/

/-- A pass where only ticker A resolves, at price 100. -/
def psSoloA : PriceSource := fun t => if t = "A" then some 100 else none

/-- Two independent positions on the same ticker A (duplicates allowed). -/
def portDup : Portfolio := [⟨"A", 1, 50⟩, ⟨"A", 1, 50⟩]

/-- A pass where no ticker resolves. -/
def psNinguno : PriceSource := fun _ => none

/-- Two positions on ticker A, for the duplicate-warning count. -/
def portDosA : Portfolio := [⟨"A", 2, 10⟩, ⟨"A", 3, 20⟩]

/-- A pass where ticker A resolves with price exactly 0. -/
def psACero : PriceSource := fun t => if t = "A" then some 0 else none

/-- One position on ticker A bought at 100. -/
def portUnoA : Portfolio := [⟨"A", 1, 100⟩]

/-- One position on ticker A with purchase price 0 (the form default). -/
def portCompraCero : Portfolio := [⟨"A", 1, 0⟩]

/-- A pass where A resolves at 60 and B at 40. -/
def psAB : PriceSource :=
  fun t => if t = "A" then some 60 else if t = "B" then some 40 else none

/-- Two positions on distinct tickers A and B. -/
def portAB : Portfolio := [⟨"A", 1, 50⟩, ⟨"B", 1, 30⟩]

/-- A pass where AAPL resolves at 150. -/
def psAAPL : PriceSource := fun t => if t = "AAPL" then some 150 else none

/-- The spec scenario portfolio: 10 AAPL bought at 100. -/
def portAAPL : Portfolio := [⟨"AAPL", 10, 100⟩]

/-- Slider values at their defaults (-20, 0, 30). -/
def slidersDefecto : Sliders := ⟨-20, 0, 30⟩

/-! Helper lemmas. -/

/-- Rounding to the nearest integer moves a rational by at most one half. -/
theorem roundHalfEven_err (x : ℚ) : |x - (roundHalfEven x : ℚ)| ≤ 1 / 2 := by
  have h0 : ((⌊x⌋ : ℚ)) ≤ x := Int.floor_le x
  have h1 : x < (⌊x⌋ : ℚ) + 1 := Int.lt_floor_add_one x
  unfold roundHalfEven
  split_ifs with ha hb hc <;>
    (rw [abs_le]; constructor <;> push_cast <;> linarith)

/-- On an exact half, `roundHalfEven` lands on an even integer. -/
theorem roundHalfEven_tie_even (x : ℚ) (h : x - (⌊x⌋ : ℚ) = 1 / 2) :
    Even (roundHalfEven x) := by
  unfold roundHalfEven
  split_ifs with ha hb hc
  · rw [h] at ha; norm_num at ha
  · rw [h] at hb; norm_num at hb
  · exact hc
  · exact Int.even_add_one.mpr hc

/-- `round2` rounds to zero exactly. -/
theorem round2_zero : round2 0 = 0 := by
  norm_num [round2, roundHalfEven]

/-- Scaling the percentage map distributes over the sum of an association
list of values. -/
theorem sum_map_escala (l : List (String × ℚ)) (T : ℚ) :
    ((l.map (fun kv => (kv.1, kv.2 / T * 100))).map Prod.snd).sum
      = (l.map Prod.snd).sum / T * 100 := by
  induction l with
  | nil => simp
  | cons kv tl ih =>
    simp only [List.map_cons, List.sum_cons, ih]
    ring

/-- C9: when the external price lookup fails (exception or empty history),
`obtener_precio_cache` returns None (not zero, not a propagated exception);
when it succeeds with at least one data point it returns the most recent
(last) closing price. -/
theorem precioCache_spec :
    (∀ e : Unit, obtenerPrecioCache (.error e) = none) ∧
    obtenerPrecioCache (.ok []) = none ∧
    ∀ (hist : List ℚ) (p : ℚ), hist.getLast? = some p →
      obtenerPrecioCache (.ok hist) = some p := by
  refine ⟨fun e => rfl, rfl, fun hist p h => ?_⟩
  simpa [obtenerPrecioCache] using h

/-- Witness for C9: a two-point history returns its last close, 7. -/
theorem precioCache_spec_witness :
    obtenerPrecioCache (.ok [(3 : ℚ), 7]) = some 7 :=
  precioCache_spec.2.2 [3, 7] 7 (by simp)

/-- C6 counterexample: on the non-empty series with first price 0, the first
normalized value is not 100 (the unguarded division by the first element has
no base-100 value; in this model it is 0). -/
theorem serieNorm_counterexample :
    (serieNorm [(0 : ℚ), 50]).head? ≠ some 100 := by
  norm_num [serieNorm]

/-- C6 (amended): an empty series normalizes to the empty result, and for a
non-empty series whose FIRST PRICE IS NONZERO the first index value is
exactly 100 and each element is `price / first * 100`, order preserved. -/
theorem serieNorm_spec :
    serieNorm ([] : List ℚ) = [] ∧
    ∀ (p0 : ℚ) (rest : List ℚ), p0 ≠ 0 →
      (serieNorm (p0 :: rest)).head? = some 100 ∧
      serieNorm (p0 :: rest) = (p0 :: rest).map (fun p => p / p0 * 100) := by
  refine ⟨rfl, fun p0 rest h => ⟨?_, rfl⟩⟩
  simp [serieNorm, div_self h]

/-- Witness for C6: the spec example series (100, 110, 90) normalizes to
(100, 110, 90). -/
theorem serieNorm_spec_witness :
    (serieNorm [(100 : ℚ), 110, 90]).head? = some 100 ∧
    serieNorm [(100 : ℚ), 110, 90] = [100, 110, 90] := by
  have h := serieNorm_spec.2 100 [110, 90] (by norm_num)
  refine ⟨h.1, ?_⟩
  rw [h.2]
  norm_num

/-- C10: a holding whose fetched price is exactly 0 is kept by the valuation
and simulation loops (which test `is None`), but skipped by the benchmark
return loop and the diversification loop (which test truthiness), within the
same pass. -/
theorem precioCero_spec (sl : Sliders) (ps : PriceSource) (inv : Holding)
    (rest : Portfolio) (h : ps inv.ticker = some 0) :
    datosPortafolio ps (inv :: rest)
      = filaValuacion inv 0 :: datosPortafolio ps rest ∧
    resultados sl ps (inv :: rest)
      = filaSimulacion sl inv 0 .pesimista :: filaSimulacion sl inv 0 .neutral ::
          filaSimulacion sl inv 0 .optimista :: resultados sl ps rest ∧
    rendimientoPortafolio ps (inv :: rest) = rendimientoPortafolio ps rest ∧
    ∀ acc, divLoop ps acc (inv :: rest) = divLoop ps acc rest := by
  refine ⟨?_, ?_, ?_, fun acc => ?_⟩ <;>
    simp [datosPortafolio, resultados, rendimientoPortafolio, divLoop, h]

/-- Witness for C10: with ticker A quoted at exactly 0, the single A holding
is present in the valuation rows but invisible to the diversification
state. -/
theorem precioCero_spec_witness :
    datosPortafolio psACero [⟨"A", 1, 100⟩]
      = filaValuacion ⟨"A", 1, 100⟩ 0 :: datosPortafolio psACero [] ∧
    divLoop psACero (0, []) [⟨"A", 1, 100⟩] = divLoop psACero (0, []) [] := by
  have h := precioCero_spec slidersDefecto psACero ⟨"A", 1, 100⟩ []
    (by simp [psACero])
  exact ⟨h.1, h.2.2.2 (0, [])⟩

/-- A holding kept by the simulation loop contributes its row for each
scenario to `resultados`. -/
theorem mem_resultados (sl : Sliders) (ps : PriceSource) (inv : Holding)
    (p : ℚ) (esc : Escenario) :
    ∀ port : Portfolio, inv ∈ port → ps inv.ticker = some p →
      filaSimulacion sl inv p esc ∈ resultados sl ps port := by
  intro port
  induction port with
  | nil => intro h _; simp at h
  | cons a tl ih =>
    intro h hp
    rcases List.mem_cons.mp h with heq | htl
    · subst heq
      simp only [resultados, hp]
      cases esc <;> simp
    · have ihm := ih htl hp
      cases hps : ps a.ticker with
      | none => simpa [resultados, hps] using ihm
      | some q => simp [resultados, hps, ihm]

/-- C4: for every holding with resolvable current price `p` and every
scenario with slider percentage `pct`, the simulation emits a row for that
holding and scenario whose stored numbers are (to the 2-decimal rounding the
source applies) `projected_value = cantidad * p * (1 + pct/100)`,
`delta = projected_value - current_value`, and
`return_pct = delta / current_value * 100` when the current value is
nonzero, else `0`. -/
theorem simulacion_spec (sl : Sliders) (ps : PriceSource) (port : Portfolio)
    (inv : Holding) (p : ℚ) (esc : Escenario) (hmem : inv ∈ port)
    (hp : ps inv.ticker = some p) :
    filaSimulacion sl inv p esc ∈ resultados sl ps port ∧
    (filaSimulacion sl inv p esc).valorActual
      = round2 ((inv.cantidad : ℚ) * p) ∧
    (filaSimulacion sl inv p esc).valorFuturo
      = round2 ((inv.cantidad : ℚ) * p * (1 + sl.pct esc / 100)) ∧
    (filaSimulacion sl inv p esc).diferencia
      = round2 ((inv.cantidad : ℚ) * p * (1 + sl.pct esc / 100)
          - (inv.cantidad : ℚ) * p) ∧
    (filaSimulacion sl inv p esc).rendimiento
      = round2 (if (inv.cantidad : ℚ) * p ≠ 0 then
            ((inv.cantidad : ℚ) * p * (1 + sl.pct esc / 100)
                - (inv.cantidad : ℚ) * p) / ((inv.cantidad : ℚ) * p) * 100
          else 0) := by
  refine ⟨mem_resultados sl ps inv p esc port hmem hp, rfl, ?_, ?_, ?_⟩
  · simp only [filaSimulacion]
    congr 1
    ring
  · simp only [filaSimulacion]
    congr 1
    ring
  · simp only [filaSimulacion]
    congr 1
    split_ifs with h
    · ring
    · rfl

/-- Witness for C4, the spec example: 10 AAPL bought at 100, current price
150, scenario -20 percent: the row exists and its projected value is 1200. -/
theorem simulacion_spec_witness :
    filaSimulacion slidersDefecto ⟨"AAPL", 10, 100⟩ 150 .pesimista
      ∈ resultados slidersDefecto psAAPL portAAPL ∧
    (filaSimulacion slidersDefecto ⟨"AAPL", 10, 100⟩ 150 .pesimista).valorFuturo
      = 1200 := by
  have h := simulacion_spec slidersDefecto psAAPL portAAPL ⟨"AAPL", 10, 100⟩
    150 .pesimista (by simp [portAAPL]) (by simp [psAAPL])
  refine ⟨h.1, ?_⟩
  rw [h.2.2.1]
  norm_num [round2, roundHalfEven, Sliders.pct, slidersDefecto]

/-- Splitting the per-scenario total over the first result row. -/
theorem totalEscenario_cons (r : FilaSimulacion) (rs : List FilaSimulacion)
    (esc : Escenario) :
    totalEscenario (r :: rs) esc
      = (if r.escenario = esc then r.valorFuturo else 0) + totalEscenario rs esc := by
  by_cases h : r.escenario = esc <;>
    simp [totalEscenario, List.filter_cons, h]

/-- The per-scenario total over the emitted rows equals the sum, over the
holdings with resolvable price, of that holding's rounded projected value. -/
theorem totalEscenario_resultados (sl : Sliders) (ps : PriceSource)
    (esc : Escenario) :
    ∀ port : Portfolio,
      totalEscenario (resultados sl ps port) esc
        = (port.filterMap (fun inv => (ps inv.ticker).map
            (fun p => round2 ((inv.cantidad : ℚ) * (p * (1 + sl.pct esc / 100)))))).sum := by
  intro port
  induction port with
  | nil => simp [resultados, totalEscenario]
  | cons inv rest ih =>
    cases hps : ps inv.ticker with
    | none => simp [resultados, hps, List.filterMap_cons, ih]
    | some p =>
      simp only [resultados, hps, List.filterMap_cons]
      rw [totalEscenario_cons, totalEscenario_cons, totalEscenario_cons]
      cases esc <;> simp [filaSimulacion, Sliders.pct, ih]

/-- The running total of current values equals the sum over the holdings
with resolvable price of `cantidad * precio_actual`. -/
theorem totalActual_eq_sum (ps : PriceSource) :
    ∀ port : Portfolio,
      totalActualPortafolio ps port
        = (port.filterMap (fun inv => (ps inv.ticker).map
            (fun p => (inv.cantidad : ℚ) * p))).sum := by
  intro port
  induction port with
  | nil => simp [totalActualPortafolio]
  | cons inv rest ih =>
    cases hps : ps inv.ticker <;>
      simp [totalActualPortafolio, hps, List.filterMap_cons, ih]

/-- C5: for every scenario, the aggregated future total is the sum of the
per-holding projected values present in the result rows of that scenario;
the aggregate delta is that total minus the total current value of the
included holdings; and the aggregate return uses the same zero-guard
against the total current value. -/
theorem resumen_spec (sl : Sliders) (ps : PriceSource) (port : Portfolio)
    (esc : Escenario) :
    totalEscenario (resultados sl ps port) esc
      = (port.filterMap (fun inv => (ps inv.ticker).map
          (fun p => round2 ((inv.cantidad : ℚ) * (p * (1 + sl.pct esc / 100)))))).sum ∧
    totalActualPortafolio ps port
      = (port.filterMap (fun inv => (ps inv.ticker).map
          (fun p => (inv.cantidad : ℚ) * p))).sum ∧
    (resumenEscenario (resultados sl ps port) (totalActualPortafolio ps port)
        esc).valorFuturoTotal
      = round2 (totalEscenario (resultados sl ps port) esc) ∧
    (resumenEscenario (resultados sl ps port) (totalActualPortafolio ps port)
        esc).diferenciaTotal
      = round2 (totalEscenario (resultados sl ps port) esc
          - totalActualPortafolio ps port) ∧
    (resumenEscenario (resultados sl ps port) (totalActualPortafolio ps port)
        esc).rendimientoTotal
      = round2 (if totalActualPortafolio ps port ≠ 0 then
            (totalEscenario (resultados sl ps port) esc
                - totalActualPortafolio ps port)
              / totalActualPortafolio ps port * 100
          else 0) :=
  ⟨totalEscenario_resultados sl ps esc port, totalActual_eq_sum ps port,
    rfl, rfl, rfl⟩

/-- When every holding has nonzero purchase price no benchmark division
fails, and the collected returns are exactly the truthy-priced ones. -/
theorem rendimientoPortafolio_eq (ps : PriceSource) :
    ∀ port : Portfolio, (∀ inv ∈ port, inv.precioCompra ≠ 0) →
      rendimientoPortafolio ps port = some (rendimientosTruthy ps port) := by
  intro port
  induction port with
  | nil => intro _; rfl
  | cons inv rest ih =>
    intro h
    have hh : inv.precioCompra ≠ 0 := h inv (List.mem_cons_self inv rest)
    have iht := ih (fun i hi => h i (List.mem_cons_of_mem inv hi))
    cases hps : ps inv.ticker with
    | none => simp [rendimientoPortafolio, rendimientosTruthy, hps, iht]
    | some p =>
      by_cases hp : p = 0
      · simp [rendimientoPortafolio, rendimientosTruthy, hps, hp, iht]
      · simp [rendimientoPortafolio, rendimientosTruthy, hps, hp,
          rendimientoBenchmark, hh, iht]

/-- C7 (amended): the portfolio flat return is the arithmetic mean of the
per-holding percentage returns over the holdings whose fetched price is
TRUTHY (present and nonzero), 0 when that list is empty, and the
"Mi portafolio" trace broadcasts the constant `100 + rend_total` across the
whole benchmark date range. (Stated for portfolios with nonzero purchase
prices, where the unguarded division of line 194 is defined.) -/
theorem rendTotal_spec (ps : PriceSource) (port : Portfolio) (n : ℕ) (r : ℚ)
    (h : ∀ inv ∈ port, inv.precioCompra ≠ 0) :
    rendTotal ps port
      = some (if rendimientosTruthy ps port ≠ [] then
            (rendimientosTruthy ps port).sum
              / ((rendimientosTruthy ps port).length : ℚ)
          else 0) ∧
    (lineaPortafolio n r).length = n ∧
    ∀ x ∈ lineaPortafolio n r, x = 100 + r := by
  refine ⟨?_, by simp [lineaPortafolio],
    fun x hx => List.eq_of_mem_replicate (by simpa [lineaPortafolio] using hx)⟩
  simp [rendTotal, rendimientoPortafolio_eq ps port h]

/-- Witness for C7: with A at 60 bought at 50 and B at 40 bought at 30, the
flat return is the mean of 20 and 100/3, namely 80/3. -/
theorem rendTotal_spec_witness : rendTotal psAB portAB = some (80 / 3) := by
  have h := (rendTotal_spec psAB portAB 0 0
    (by
      intro inv hi
      simp only [portAB, List.mem_cons, List.not_mem_nil, or_false] at hi
      rcases hi with rfl | rfl <;> norm_num)).1
  have hlist : rendimientosTruthy psAB portAB = [20, 100 / 3] := by
    simp [rendimientosTruthy, psAB, portAB, List.filterMap_cons,
      (by decide : ("B" : String) ≠ "A")]
    norm_num
  rw [h, hlist]
  rw [if_pos (by simp : ([20, 100 / 3] : List ℚ) ≠ [])]
  norm_num

/-- C7 counterexample: a holding whose price resolves to exactly 0 is
excluded from the mean by the truthiness test of line 193, so the computed
flat return (0) differs from the mean over all resolvable-price holdings
(-100) that the claim prescribes. -/
theorem rendTotal_counterexample :
    rendTotal psACero portUnoA = some 0 ∧
    rendTotalSpecC7 psACero portUnoA = -100 ∧
    rendTotal psACero portUnoA ≠ some (rendTotalSpecC7 psACero portUnoA) := by
  have h1 : rendTotal psACero portUnoA = some 0 := by
    norm_num [rendTotal, rendimientoPortafolio, psACero, portUnoA]
  have hlist : rendimientosSpecC7 psACero portUnoA = [-100] := by
    simp [rendimientosSpecC7, psACero, portUnoA, List.filterMap_cons]
  have h2 : rendTotalSpecC7 psACero portUnoA = -100 := by
    rw [rendTotalSpecC7, hlist]
    norm_num
  refine ⟨h1, h2, ?_⟩
  rw [h1, h2]
  norm_num

/-- Rounding to 2 decimals moves a rational by at most 1/200. -/
theorem round2_err (x : ℚ) : |x - round2 x| ≤ 1 / 200 := by
  have h := roundHalfEven_err (x * 100)
  rw [abs_le] at h
  rw [round2, abs_le]
  constructor <;> linarith [h.1, h.2]

/-- A holding kept by the valuation loop contributes its row. -/
theorem mem_datosPortafolio (ps : PriceSource) (inv : Holding) (p : ℚ) :
    ∀ port : Portfolio, inv ∈ port → ps inv.ticker = some p →
      filaValuacion inv p ∈ datosPortafolio ps port := by
  intro port
  induction port with
  | nil => intro h _; simp at h
  | cons a tl ih =>
    intro h hp
    rcases List.mem_cons.mp h with heq | htl
    · subst heq
      simp [datosPortafolio, hp]
    · have ihm := ih htl hp
      cases hps : ps a.ticker <;> simp [datosPortafolio, hps, ihm]

/-- When every lookup fails the valuation result is empty. -/
theorem datosPortafolio_vacio (ps : PriceSource) :
    ∀ port : Portfolio, (∀ inv ∈ port, ps inv.ticker = none) →
      datosPortafolio ps port = [] := by
  intro port
  induction port with
  | nil => intro _; rfl
  | cons a tl ih =>
    intro h
    have ha := h a (List.mem_cons_self a tl)
    simp [datosPortafolio, ha, ih (fun i hi => h i (List.mem_cons_of_mem a hi))]

/-- C8: every holding with a resolvable price yields a valuation row whose
current value is `cantidad * precio_actual` rounded to 2 decimal places
under the round-half-to-even rule (the rounding moves a value by at most
1/200, lands on a multiple of 1/100, and resolves ties to even); an empty
portfolio, or one in which every lookup fails, yields the empty row
sequence rather than an error. -/
theorem valuacion_spec :
    (∀ (ps : PriceSource) (port : Portfolio) (inv : Holding) (p : ℚ),
        inv ∈ port → ps inv.ticker = some p →
        filaValuacion inv p ∈ datosPortafolio ps port ∧
        (filaValuacion inv p).valorActual = round2 ((inv.cantidad : ℚ) * p)) ∧
    (∀ ps : PriceSource, datosPortafolio ps [] = []) ∧
    (∀ (ps : PriceSource) (port : Portfolio),
        (∀ inv ∈ port, ps inv.ticker = none) → datosPortafolio ps port = []) ∧
    (∀ x : ℚ, |x - round2 x| ≤ 1 / 200 ∧ ∃ n : ℤ, round2 x = (n : ℚ) / 100) ∧
    (∀ x : ℚ, x - (⌊x⌋ : ℚ) = 1 / 2 → Even (roundHalfEven x)) :=
  ⟨fun ps port inv p hm hp => ⟨mem_datosPortafolio ps inv p port hm hp, rfl⟩,
    fun _ => rfl, datosPortafolio_vacio,
    fun x => ⟨round2_err x, ⟨roundHalfEven (x * 100), rfl⟩⟩,
    roundHalfEven_tie_even⟩

/-- Witness for C8: 10 AAPL at current price 150 value at exactly 1500. -/
theorem valuacion_spec_witness :
    filaValuacion ⟨"AAPL", 10, 100⟩ 150 ∈ datosPortafolio psAAPL portAAPL ∧
    (filaValuacion ⟨"AAPL", 10, 100⟩ 150).valorActual = 1500 := by
  have h := valuacion_spec.1 psAAPL portAAPL ⟨"AAPL", 10, 100⟩ 150
    (by simp [portAAPL]) (by simp [psAAPL])
  refine ⟨h.1, ?_⟩
  rw [h.2]
  norm_num [round2, roundHalfEven]

/-- An entry of the updated dict comes from the new key or from the old
dict. -/
theorem mem_insertaValor (m : List (String × ℚ)) (k : String) (v : ℚ) :
    ∀ kv ∈ insertaValor m k v, kv.1 = k ∨ kv ∈ m := by
  intro kv hkv
  unfold insertaValor at hkv
  split_ifs at hkv with h
  · rcases List.mem_map.mp hkv with ⟨kv0, hkv0, heq⟩
    by_cases hk : kv0.1 = k
    · left
      rw [← heq]
      simp [hk]
    · right
      rw [if_neg (by simpa using hk)] at heq
      rw [← heq]
      exact hkv0
  · rcases List.mem_append.mp hkv with hm | hs
    · right; exact hm
    · left
      rw [List.mem_singleton.mp hs]

/-- No valuation row carries a ticker whose lookup failed. -/
theorem datos_sin_ticker (ps : PriceSource) (t : String) (h : ps t = none) :
    ∀ port : Portfolio, ∀ fila ∈ datosPortafolio ps port, fila.ticker ≠ t := by
  intro port
  induction port with
  | nil => simp [datosPortafolio]
  | cons inv rest ih =>
    intro fila hf
    cases hps : ps inv.ticker with
    | none =>
      simp only [datosPortafolio, hps] at hf
      exact ih fila hf
    | some p =>
      simp only [datosPortafolio, hps, List.mem_cons] at hf
      rcases hf with rfl | hf2
      · intro hct
        rw [show (filaValuacion inv p).ticker = inv.ticker from rfl] at hct
        rw [hct, h] at hps
        exact Option.noConfusion hps
      · exact ih fila hf2

/-- No simulation row carries a ticker whose lookup failed. -/
theorem resultados_sin_ticker (sl : Sliders) (ps : PriceSource) (t : String)
    (h : ps t = none) :
    ∀ port : Portfolio, ∀ fila ∈ resultados sl ps port, fila.ticker ≠ t := by
  intro port
  induction port with
  | nil => simp [resultados]
  | cons inv rest ih =>
    intro fila hf
    cases hps : ps inv.ticker with
    | none =>
      simp only [resultados, hps] at hf
      exact ih fila hf
    | some p =>
      simp only [resultados, hps, List.mem_cons] at hf
      have hti : inv.ticker ≠ t := by
        intro hct
        rw [hct, h] at hps
        exact Option.noConfusion hps
      rcases hf with rfl | rfl | rfl | hf2
      · exact hti
      · exact hti
      · exact hti
      · exact ih fila hf2

/-- No diversification dict key is a ticker whose lookup failed. -/
theorem divLoop_sin_ticker (ps : PriceSource) (t : String) (h : ps t = none) :
    ∀ (port : Portfolio) (acc : ℚ × List (String × ℚ)),
      (∀ kv ∈ acc.2, kv.1 ≠ t) →
      ∀ kv ∈ (divLoop ps acc port).2, kv.1 ≠ t := by
  intro port
  induction port with
  | nil =>
    intro acc hacc kv hkv
    exact hacc kv (by simpa [divLoop] using hkv)
  | cons inv rest ih =>
    intro acc hacc kv hkv
    cases hps : ps inv.ticker with
    | none =>
      simp only [divLoop, hps] at hkv
      exact ih acc hacc kv hkv
    | some p =>
      by_cases hp : p = 0
      · simp only [divLoop, hps, if_pos hp] at hkv
        exact ih acc hacc kv hkv
      · simp only [divLoop, hps, if_neg hp] at hkv
        refine ih _ ?_ kv hkv
        intro kv2 hkv2
        rcases mem_insertaValor acc.2 inv.ticker ((inv.cantidad : ℚ) * p)
          kv2 hkv2 with hk | hm
        · rw [hk]
          intro hct
          rw [hct, h] at hps
          exact Option.noConfusion hps
        · exact hacc kv2 hm

/-- A holding with failed lookup prepends its ticker to the valuation
warnings. -/
theorem avisosValuacion_cons_none (ps : PriceSource) (inv : Holding)
    (rest : Portfolio) (h : ps inv.ticker = none) :
    avisosValuacion ps (inv :: rest) = inv.ticker :: avisosValuacion ps rest := by
  simp [avisosValuacion, List.filterMap_cons, h]

/-- A holding with resolved price adds no valuation warning. -/
theorem avisosValuacion_cons_some (ps : PriceSource) (inv : Holding)
    (rest : Portfolio) (p : ℚ) (h : ps inv.ticker = some p) :
    avisosValuacion ps (inv :: rest) = avisosValuacion ps rest := by
  simp [avisosValuacion, List.filterMap_cons, h]

/-- For a ticker whose lookup failed, the valuation-loop warnings name it
once per holding entry carrying that ticker. -/
theorem conteo_avisos (ps : PriceSource) (t : String) (h : ps t = none) :
    ∀ port : Portfolio,
      (avisosValuacion ps port).count t
        = (port.filter (fun inv => inv.ticker == t)).length := by
  intro port
  induction port with
  | nil => rfl
  | cons inv rest ih =>
    by_cases hti : inv.ticker = t
    · have hnone : ps inv.ticker = none := by rw [hti]; exact h
      rw [avisosValuacion_cons_none ps inv rest hnone, List.count_cons,
        List.filter_cons]
      simp [hti, ih]
    · cases hps : ps inv.ticker with
      | none =>
        rw [avisosValuacion_cons_none ps inv rest hps, List.count_cons,
          List.filter_cons]
        simp [hti, ih]
      | some p =>
        rw [avisosValuacion_cons_some ps inv rest p hps, List.filter_cons]
        simp [hti, ih]

/-- C2 (amended): a holding whose ticker has no resolvable price appears in
none of the valuation, simulation or diversification results; the valuation
and simulation loops each emit exactly one warning per holding entry with
that ticker (so a duplicated ticker is warned once per entry); the
diversification loop skips such a holding silently, its only warnings being
the concentration ones, which never name an unresolvable ticker. -/
theorem sin_precio_spec (sl : Sliders) (ps : PriceSource) (port : Portfolio)
    (t : String) (h : ps t = none) :
    (∀ fila ∈ datosPortafolio ps port, fila.ticker ≠ t) ∧
    (∀ fila ∈ resultados sl ps port, fila.ticker ≠ t) ∧
    (∀ kv ∈ (diversificacion ps port).2, kv.1 ≠ t) ∧
    (avisosValuacion ps port).count t
      = (port.filter (fun inv => inv.ticker == t)).length ∧
    (avisosSimulacion ps port).count t
      = (port.filter (fun inv => inv.ticker == t)).length ∧
    ∀ s ∈ avisosDiversificacion ps port, s ≠ t := by
  refine ⟨datos_sin_ticker ps t h port, resultados_sin_ticker sl ps t h port,
    divLoop_sin_ticker ps t h port (0, []) (by simp), conteo_avisos ps t h port,
    conteo_avisos ps t h port, ?_⟩
  intro s hs
  rcases List.mem_map.mp hs with ⟨kv, hkv, rfl⟩
  have hkv2 : kv ∈ pesos ps port := List.mem_of_mem_filter hkv
  simp only [pesos] at hkv2
  split_ifs at hkv2 with hpos
  · rcases List.mem_map.mp hkv2 with ⟨kv0, hkv0, heq⟩
    have hne := divLoop_sin_ticker ps t h port (0, []) (by simp) kv0 hkv0
    rw [← heq]
    exact hne
  · simp at hkv2

/-- Witness for C2: with no ticker resolvable, the single A holding leaves
every result empty and A is warned exactly once by the valuation loop. -/
theorem sin_precio_spec_witness :
    (avisosValuacion psNinguno portUnoA).count "A"
      = (portUnoA.filter (fun inv => inv.ticker == "A")).length ∧
    ∀ kv ∈ (diversificacion psNinguno portUnoA).2, kv.1 ≠ "A" := by
  have h := sin_precio_spec slidersDefecto psNinguno portUnoA "A" rfl
  exact ⟨h.2.2.2.1, h.2.2.1⟩

/-- C2 counterexample: two holdings on the unresolvable ticker A produce TWO
valuation warnings for A, not one, and the diversification pass produces no
warning at all for A. -/
theorem sin_precio_counterexample :
    (avisosValuacion psNinguno portDosA).count "A" ≠ 1 ∧
    avisosDiversificacion psNinguno portDosA = [] := by
  constructor
  · norm_num [avisosValuacion, List.filterMap_cons, psNinguno, portDosA,
      List.count_cons]
  · norm_num [avisosDiversificacion, pesos, diversificacion, divLoop,
      psNinguno, portDosA]

/-- C3 (amended): the divisions of the scenario engine and its aggregate,
and the flat-return mean, are all zero-guarded (returning 0); the benchmark
per-holding return division by `precio_compra` is NOT guarded: it fails
(modelled `none`) whenever `precio_compra = 0` and the holding's price is
truthy. -/
theorem guardas_spec :
    (∀ (sl : Sliders) (inv : Holding) (p : ℚ) (esc : Escenario),
        (inv.cantidad : ℚ) * p = 0 →
        (filaSimulacion sl inv p esc).rendimiento = 0) ∧
    (∀ (rs : List FilaSimulacion) (esc : Escenario),
        (resumenEscenario rs 0 esc).rendimientoTotal = 0) ∧
    (∀ (ps : PriceSource) (port : Portfolio),
        rendimientoPortafolio ps port = some [] → rendTotal ps port = some 0) ∧
    (∀ pc p : ℚ, pc ≠ 0 →
        rendimientoBenchmark pc p = some ((p - pc) / pc * 100)) ∧
    (∀ p : ℚ, rendimientoBenchmark 0 p = none) := by
  refine ⟨?_, ?_, ?_, ?_, ?_⟩
  · intro sl inv p esc hva
    simp [filaSimulacion, hva, round2_zero]
  · intro rs esc
    simp [resumenEscenario, round2_zero]
  · intro ps port hp
    simp [rendTotal, hp]
  · intro pc p hpc
    simp [rendimientoBenchmark, hpc]
  · intro p
    simp [rendimientoBenchmark]

/-- Witness for C3: a holding priced at 0 yields scenario return 0, not an
error. -/
theorem guardas_spec_witness :
    (filaSimulacion slidersDefecto ⟨"A", 1, 50⟩ 0 .neutral).rendimiento = 0 :=
  guardas_spec.1 slidersDefecto ⟨"A", 1, 50⟩ 0 .neutral (by norm_num)

/-- C3 counterexample: for a holding with purchase price 0 (the form
default) and resolvable price 100, the benchmark return division has no
guard and the whole flat-return pass fails instead of returning 0. -/
theorem guardas_counterexample :
    rendimientoBenchmark 0 100 = none ∧
    rendTotal psSoloA portCompraCero = none ∧
    rendTotal psSoloA portCompraCero ≠ some 0 := by
  have h : rendTotal psSoloA portCompraCero = none := by
    norm_num [rendTotal, rendimientoPortafolio, rendimientoBenchmark,
      psSoloA, portCompraCero]
  refine ⟨by simp [rendimientoBenchmark], h, by rw [h]; simp⟩

/-- Inserting a fresh key appends the pair. -/
theorem insertaValor_append (m : List (String × ℚ)) (k : String) (v : ℚ)
    (h : ∀ kv ∈ m, kv.1 ≠ k) : insertaValor m k v = m ++ [(k, v)] := by
  have h2 : ¬(m.any (fun kv => kv.1 == k) = true) := by
    intro hc
    rcases List.any_eq_true.mp hc with ⟨kv, hkv, hbeq⟩
    exact h kv hkv (by simpa using hbeq)
  unfold insertaValor
  rw [if_neg h2]

/-- The running total accumulated by the diversification loop is the sum of
the kept holdings' values. -/
theorem divLoop_fst_eq (ps : PriceSource) :
    ∀ (port : Portfolio) (acc : ℚ × List (String × ℚ)),
      (divLoop ps acc port).1
        = acc.1 + ((valoresContribuidos ps port).map Prod.snd).sum := by
  intro port
  induction port with
  | nil => intro acc; simp [divLoop, valoresContribuidos]
  | cons inv rest ih =>
    intro acc
    cases hps : ps inv.ticker with
    | none =>
      simp [divLoop, valoresContribuidos, List.filterMap_cons, hps, ih]
    | some p =>
      by_cases hp : p = 0
      · simp [divLoop, valoresContribuidos, List.filterMap_cons, hps, hp, ih]
      · simp only [divLoop, hps, if_neg hp, valoresContribuidos,
          List.filterMap_cons, List.map_cons, List.sum_cons, ih]
        ring

/-- With pairwise distinct kept tickers (none already in the accumulator),
the dict built by the diversification loop is exactly the kept
contributions, appended in order: no overwrite happens. -/
theorem divLoop_snd_eq (ps : PriceSource) :
    ∀ (port : Portfolio) (acc : ℚ × List (String × ℚ)),
      ((valoresContribuidos ps port).map Prod.fst).Nodup →
      (∀ k ∈ (valoresContribuidos ps port).map Prod.fst,
          ∀ kv ∈ acc.2, kv.1 ≠ k) →
      (divLoop ps acc port).2 = acc.2 ++ valoresContribuidos ps port := by
  intro port
  induction port with
  | nil => intro acc _ _; simp [divLoop, valoresContribuidos]
  | cons inv rest ih =>
    intro acc hnd hdis
    cases hps : ps inv.ticker with
    | none =>
      have hvc : valoresContribuidos ps (inv :: rest)
          = valoresContribuidos ps rest := by
        simp [valoresContribuidos, List.filterMap_cons, hps]
      rw [hvc] at hnd hdis ⊢
      simp only [divLoop, hps]
      exact ih acc hnd hdis
    | some p =>
      by_cases hp : p = 0
      · have hvc : valoresContribuidos ps (inv :: rest)
            = valoresContribuidos ps rest := by
          simp [valoresContribuidos, List.filterMap_cons, hps, hp]
        rw [hvc] at hnd hdis ⊢
        simp only [divLoop, hps, if_pos hp]
        exact ih acc hnd hdis
      · have hvc : valoresContribuidos ps (inv :: rest)
            = (inv.ticker, (inv.cantidad : ℚ) * p) :: valoresContribuidos ps rest := by
          simp [valoresContribuidos, List.filterMap_cons, hps, hp]
        rw [hvc] at hnd hdis ⊢
        rw [List.map_cons, List.nodup_cons] at hnd
        have hfresh : ∀ kv ∈ acc.2, kv.1 ≠ inv.ticker :=
          hdis inv.ticker (by simp)
        have hins := insertaValor_append acc.2 inv.ticker
          ((inv.cantidad : ℚ) * p) hfresh
        simp only [divLoop, hps, if_neg hp, hins]
        rw [ih (acc.1 + (inv.cantidad : ℚ) * p, acc.2 ++ [(inv.ticker, (inv.cantidad : ℚ) * p)])
          hnd.2 ?_]
        · rw [List.append_assoc, List.singleton_append]
        · intro k hk kv hkv
          rcases List.mem_append.mp hkv with hm | hs
          · exact hdis k (List.mem_cons_of_mem _ hk) kv hm
          · rw [List.mem_singleton.mp hs]
            intro hc
            rw [hc] at hnd
            exact hnd.1 hk

/-- C1 (amended): when the portfolio total is positive AND the kept holdings
carry pairwise distinct ticker strings, the reported weight percentages sum
to exactly 100; when the total is 0 the weights and the concentration
warnings are both empty. (With duplicate ticker strings the dict overwrite
of line 236 drops all but the last entry per ticker while the total keeps
every entry, so the reported weights sum to less than 100 — see the
counterexample.) -/
theorem pesos_spec (ps : PriceSource) (port : Portfolio)
    (hnd : ((valoresContribuidos ps port).map Prod.fst).Nodup)
    (hpos : 0 < (diversificacion ps port).1) :
    ((pesos ps port).map Prod.snd).sum = 100 ∧
    ∀ (ps2 : PriceSource) (port2 : Portfolio),
      (diversificacion ps2 port2).1 = 0 →
      pesos ps2 port2 = [] ∧ avisosDiversificacion ps2 port2 = [] := by
  constructor
  · have hsnd := divLoop_snd_eq ps port (0, []) hnd (by simp)
    have hfst := divLoop_fst_eq ps port (0, [])
    have hd2 : (diversificacion ps port).2 = valoresContribuidos ps port := by
      simpa [diversificacion] using hsnd
    have hd1 : (diversificacion ps port).1
        = ((valoresContribuidos ps port).map Prod.snd).sum := by
      simpa [diversificacion] using hfst
    simp only [pesos]
    rw [if_pos hpos, hd2, sum_map_escala, ← hd1,
      div_self (ne_of_gt hpos), one_mul]
  · intro ps2 port2 h0
    have hpes : pesos ps2 port2 = [] := by
      simp [pesos, h0]
    exact ⟨hpes, by simp [avisosDiversificacion, hpes]⟩

/-- Witness for C1: distinct tickers A (value 60) and B (value 40) give
weights 60 and 40, which sum to 100. -/
theorem pesos_spec_witness : ((pesos psAB portAB).map Prod.snd).sum = 100 := by
  refine (pesos_spec psAB portAB ?_ ?_).1
  · simp [valoresContribuidos, List.filterMap_cons, psAB, portAB,
      (by decide : ("B" : String) ≠ "A")]
  · norm_num [diversificacion, divLoop, insertaValor, psAB, portAB,
      (by decide : ("B" : String) ≠ "A")]

/-- C1 counterexample: two duplicate holdings of ticker A, each worth 100,
give a positive total of 200, but the single surviving dict entry reports
weight 50: the weights sum to 50, not 100. -/
theorem pesos_counterexample :
    0 < (diversificacion psSoloA portDup).1 ∧
    ((pesos psSoloA portDup).map Prod.snd).sum ≠ 100 := by
  constructor <;>
    norm_num [pesos, diversificacion, divLoop, insertaValor, psSoloA, portDup]

end ProyectoFinal
